import Mathlib

/-!
Verification development for the CleanNet 5G node-placement optimizer
(`src/app.py`).  The core pipeline is embedded shallowly: the haversine
distance, the scoring loop (coverage override plus AQI penalty), the
greedy selection with exclusion radius, and the result formatting.
Floating-point numbers are modelled as real numbers; numpy's globally
seeded uniform sampler is modelled as an abstract deterministic stream
`U : seed → index → ℝ` threaded through an explicit generator state.
-/

namespace CleanNet

/-- Rectangular region bounds, as read from the four number inputs. -/
structure Region where
  latMin : ℝ
  lonMin : ℝ
  latMax : ℝ
  lonMax : ℝ

/-- A population center: name, coordinates and population weight. -/
structure Center where
  cname : String
  lat : ℝ
  lon : ℝ
  pop : ℝ

/-- The baseline AQI anchor point.  The `baseValue` field is collected by
the app but never used in the AQI formula (the 65 is hard-coded). -/
structure Anchor where
  lat : ℝ
  lon : ℝ
  baseValue : ℝ

/-- A generated candidate node (lat/lon only). -/
structure Cand where
  lat : ℝ
  lon : ℝ

/-- A scored candidate, mirroring the result dictionaries built at
line 78 of `app.py`: name, coordinates, coverage, aqi and score. -/
structure SNode where
  sname : String
  lat : ℝ
  lon : ℝ
  coverage : ℝ
  aqi : ℝ
  score : ℝ

noncomputable section

open Real

/-- Degrees to radians, as `math.radians`. -/
def deg2rad (x : ℝ) : ℝ := x * π / 180

/-- The two-argument arctangent `math.atan2 y x` (note the argument
order: `y` first), with the standard branch choices. -/
def atan2 (y x : ℝ) : ℝ :=
  if 0 < x then arctan (y / x)
  else if x < 0 then
    (if 0 ≤ y then arctan (y / x) + π else arctan (y / x) - π)
  else
    (if 0 < y then π / 2 else if y < 0 then -(π / 2) else 0)

/-- The haversine great-circle distance of `app.py` lines 9-16:
Earth radius 6371 km, inputs in degrees. -/
def haversine (lat1 lon1 lat2 lon2 : ℝ) : ℝ :=
  let p1 := deg2rad lat1
  let p2 := deg2rad lat2
  let l1 := deg2rad lon1
  let l2 := deg2rad lon2
  let dlat := p2 - p1
  let dlon := l2 - l1
  let a := Real.sin (dlat / 2) ^ 2 +
    Real.cos p1 * Real.cos p2 * Real.sin (dlon / 2) ^ 2
  let c := 2 * atan2 (Real.sqrt a) (Real.sqrt (1 - a))
  6371 * c

/-- The normalization constant of `app.py` lines 52-55: the larger of the
two corner-to-opposite-corner distances of the region, computed once per
run. -/
def Dmax (r : Region) : ℝ :=
  max (haversine r.latMin r.lonMin r.latMax r.lonMax)
    (haversine r.latMin r.lonMax r.latMax r.lonMin)

theorem haversine_self (lat lon : ℝ) : haversine lat lon lat lon = 0 := by
  simp [haversine, atan2, sub_self, Real.sin_zero, Real.sqrt_zero,
    Real.sqrt_one, zero_div, Real.arctan_zero]

theorem haversine_symm (lat1 lon1 lat2 lon2 : ℝ) :
    haversine lat1 lon1 lat2 lon2 = haversine lat2 lon2 lat1 lon1 := by
  have hsin : ∀ x y : ℝ, Real.sin ((x - y) / 2) ^ 2 = Real.sin ((y - x) / 2) ^ 2 := by
    intro x y
    rw [show (x - y) / 2 = -((y - x) / 2) by ring, Real.sin_neg, neg_sq]
  simp only [haversine]
  rw [hsin (deg2rad lat1) (deg2rad lat2), hsin (deg2rad lon1) (deg2rad lon2),
    mul_comm (Real.cos (deg2rad lat1)) (Real.cos (deg2rad lat2))]

theorem arctan_pos_of {x : ℝ} (h : 0 < x) : 0 < arctan x := by
  have := Real.arctan_strictMono h
  rwa [Real.arctan_zero] at this

theorem atan2_pos_of {y x : ℝ} (hy : 0 < y) (hx : 0 ≤ x) : 0 < atan2 y x := by
  rcases lt_or_eq_of_le hx with hx' | hx'
  · rw [atan2, if_pos hx']
    exact arctan_pos_of (div_pos hy hx')
  · rw [atan2, if_neg (by rw [← hx']; exact lt_irrefl 0),
      if_neg (by rw [← hx']; exact lt_irrefl 0), if_pos hy]
    positivity

/-- Concrete evaluation: the quarter-meridian distance between the
equator and the north pole. -/
theorem hav_0_90 : haversine 0 0 90 0 = 6371 * (π / 2) := by
  have h0 : deg2rad 0 = 0 := by simp [deg2rad]
  have h90 : deg2rad 90 = π / 2 := by rw [deg2rad]; ring
  have hhalf : Real.sin (π / 2 / 2) ^ 2 = 1 / 2 := by
    rw [show π / 2 / 2 = π / 4 by ring, Real.sin_pi_div_four]
    rw [div_pow, Real.sq_sqrt (by norm_num : (0:ℝ) ≤ 2)]
    norm_num
  simp only [haversine, h0, h90, sub_zero, zero_sub, zero_div, Real.sin_zero]
  rw [hhalf, Real.cos_pi_div_two]
  have ha : (1:ℝ) / 2 + Real.cos 0 * 0 * 0 ^ 2 = 1 / 2 := by norm_num
  rw [ha]
  have hs : (1:ℝ) - 1 / 2 = 1 / 2 := by norm_num
  rw [hs]
  have hpos : 0 < Real.sqrt (1 / 2) := Real.sqrt_pos.mpr (by norm_num)
  rw [atan2, if_pos hpos, div_self (ne_of_gt hpos), Real.arctan_one]
  ring

theorem ten_lt_quarter : (10:ℝ) < 6371 * (π / 2) := by
  nlinarith [Real.pi_gt_three]

/-- Concrete evaluation: two points on the same meridian whose latitudes
differ by exactly `(10/6371)·(180/π)` degrees are at haversine distance
exactly 10 km. -/
theorem hav_exact10 :
    haversine 0 0 (1800 / (6371 * π)) 0 = 10 := by
  have hpi : (0:ℝ) < π := Real.pi_pos
  have hp2 : deg2rad (1800 / (6371 * π)) = 10 / 6371 := by
    rw [deg2rad]
    field_simp
    ring
  have h0 : deg2rad 0 = 0 := by simp [deg2rad]
  have hθpos : (0:ℝ) < 5 / 6371 := by norm_num
  have hθlt : (5:ℝ) / 6371 < π / 2 := by nlinarith [Real.pi_gt_three]
  have hsin_pos : 0 < Real.sin (5 / 6371) :=
    Real.sin_pos_of_pos_of_lt_pi hθpos (by nlinarith [Real.pi_gt_three])
  have hcos_pos : 0 < Real.cos (5 / 6371) :=
    Real.cos_pos_of_mem_Ioo ⟨by nlinarith [Real.pi_gt_three], hθlt⟩
  simp only [haversine, h0, hp2, sub_zero, zero_sub, zero_div, Real.sin_zero]
  have hd2 : (10:ℝ) / 6371 / 2 = 5 / 6371 := by norm_num
  rw [hd2]
  have ha : Real.sin (5 / 6371) ^ 2 + Real.cos 0 * Real.cos (10 / 6371) * (0:ℝ) ^ 2
      = Real.sin (5 / 6371) ^ 2 := by norm_num
  rw [ha]
  rw [Real.sqrt_sq (le_of_lt hsin_pos)]
  rw [show (1:ℝ) - Real.sin (5 / 6371) ^ 2 = Real.cos (5 / 6371) ^ 2 from
    (Real.cos_sq' _).symm]
  rw [Real.sqrt_sq (le_of_lt hcos_pos)]
  rw [atan2, if_pos hcos_pos, ← Real.tan_eq_sin_div_cos,
    Real.arctan_tan (by nlinarith [Real.pi_gt_three]) hθlt]
  ring

/-- Concrete evaluation: with out-of-range degree inputs differing by a
full 360° on both axes, the haversine formula returns 0. -/
theorem hav_360_a : haversine 0 0 360 360 = 0 := by
  have h360 : deg2rad 360 = 2 * π := by rw [deg2rad]; ring
  have h0 : deg2rad 0 = 0 := by simp [deg2rad]
  simp only [haversine, h0, h360, sub_zero]
  rw [show 2 * π / 2 = π by ring, Real.sin_pi]
  norm_num [atan2, Real.arctan_zero]

theorem hav_360_b : haversine 0 360 360 0 = 0 := by
  have h360 : deg2rad 360 = 2 * π := by rw [deg2rad]; ring
  have h0 : deg2rad 0 = 0 := by simp [deg2rad]
  simp only [haversine, h0, h360, sub_zero, zero_sub]
  rw [show 2 * π / 2 = π by ring, Real.sin_pi,
    show -(2 * π) / 2 = -π by ring, Real.sin_neg, Real.sin_pi]
  norm_num [atan2, Real.arctan_zero]

/-- With in-range latitudes and a strictly wider upper latitude, the
haversine distance is strictly positive whatever the longitudes. -/
theorem hav_pos_of_lat {lat1 lon1 lat2 lon2 : ℝ}
    (h1 : -90 ≤ lat1) (h2 : lat1 < lat2) (h3 : lat2 ≤ 90) :
    0 < haversine lat1 lon1 lat2 lon2 := by
  have hpi : (0:ℝ) < π := Real.pi_pos
  have hθpos : 0 < (deg2rad lat2 - deg2rad lat1) / 2 := by
    simp only [deg2rad]
    nlinarith [mul_pos (show (0:ℝ) < lat2 - lat1 by linarith) hpi]
  have hle : lat2 - lat1 ≤ 180 := by linarith
  have hθlt : (deg2rad lat2 - deg2rad lat1) / 2 < π := by
    simp only [deg2rad]
    nlinarith [mul_le_mul_of_nonneg_right hle hpi.le]
  have hsin : 0 < Real.sin ((deg2rad lat2 - deg2rad lat1) / 2) :=
    Real.sin_pos_of_pos_of_lt_pi hθpos hθlt
  have hcos1 : 0 ≤ Real.cos (deg2rad lat1) := by
    refine Real.cos_nonneg_of_mem_Icc ⟨?_, ?_⟩ <;> simp only [deg2rad]
    · nlinarith [mul_le_mul_of_nonneg_right (show (-90:ℝ) ≤ lat1 from h1) hpi.le]
    · nlinarith [mul_le_mul_of_nonneg_right (show lat1 ≤ (90:ℝ) by linarith) hpi.le]
  have hcos2 : 0 ≤ Real.cos (deg2rad lat2) := by
    refine Real.cos_nonneg_of_mem_Icc ⟨?_, ?_⟩ <;> simp only [deg2rad]
    · nlinarith [mul_le_mul_of_nonneg_right (show (-90:ℝ) ≤ lat2 by linarith) hpi.le]
    · nlinarith [mul_le_mul_of_nonneg_right (show lat2 ≤ (90:ℝ) from h3) hpi.le]
  simp only [haversine]
  have ha : 0 < Real.sin ((deg2rad lat2 - deg2rad lat1) / 2) ^ 2 +
      Real.cos (deg2rad lat1) * Real.cos (deg2rad lat2) *
        Real.sin ((deg2rad lon2 - deg2rad lon1) / 2) ^ 2 := by
    have hterm : 0 ≤ Real.cos (deg2rad lat1) * Real.cos (deg2rad lat2) *
        Real.sin ((deg2rad lon2 - deg2rad lon1) / 2) ^ 2 :=
      mul_nonneg (mul_nonneg hcos1 hcos2) (sq_nonneg _)
    nlinarith [pow_pos hsin 2]
  have hat : 0 < atan2
      (Real.sqrt (Real.sin ((deg2rad lat2 - deg2rad lat1) / 2) ^ 2 +
        Real.cos (deg2rad lat1) * Real.cos (deg2rad lat2) *
          Real.sin ((deg2rad lon2 - deg2rad lon1) / 2) ^ 2))
      (Real.sqrt (1 - (Real.sin ((deg2rad lat2 - deg2rad lat1) / 2) ^ 2 +
        Real.cos (deg2rad lat1) * Real.cos (deg2rad lat2) *
          Real.sin ((deg2rad lon2 - deg2rad lon1) / 2) ^ 2))) :=
    atan2_pos_of (Real.sqrt_pos.mpr ha) (Real.sqrt_nonneg _)
  nlinarith [hat]

/-- Zero-padded decimal rendering of width 2, as the Python format
specifier `02d` behaves on positive numbers. -/
def pad2 (n : ℕ) : String :=
  if n < 10 then "0" ++ toString n else toString n

/-- The coverage loop of `app.py` lines 71-75: start from the rural
baseline `rural_density * (π * 10²)` and override with the population of
the first center whose distance is strictly below 10 km, if any. -/
def coverageOf (lat lon : ℝ) (centers : List Center) (rural : ℝ) : ℝ :=
  match centers with
  | [] => rural * (π * 10 ^ 2)
  | c :: cs =>
    if haversine lat lon c.lat c.lon < 10 then c.pop
    else coverageOf lat lon cs rural

/-- Scoring of one candidate (`app.py` lines 66-78): AQI from the
distance to the anchor normalized by `dmax`, coverage from
`coverageOf`, score `coverage - 0.5 * aqi`, and the generated name
`"Node-" ++ pad2 (i+1)` from the candidate's index in the pool. -/
def scoreOne (centers : List Center) (rural : ℝ) (anchor : Anchor)
    (dmax : ℝ) (i : ℕ) (c : Cand) : SNode :=
  let d := haversine c.lat c.lon anchor.lat anchor.lon
  let aqi := max 30 (65 - d / dmax * 35)
  let cov := coverageOf c.lat c.lon centers rural
  { sname := "Node-" ++ pad2 (i + 1), lat := c.lat, lon := c.lon,
    coverage := cov, aqi := aqi, score := cov - 0.5 * aqi }

/-- The scoring loop over the enumerated candidate pool. -/
def scoreNodes (centers : List Center) (rural : ℝ) (anchor : Anchor)
    (dmax : ℝ) : ℕ → List Cand → List SNode
  | _, [] => []
  | i, c :: cs =>
    scoreOne centers rural anchor dmax i c ::
      scoreNodes centers rural anchor dmax (i + 1) cs

/-- Stable descending insertion: place `x` before the first element whose
score is at most `x`'s, so earlier elements keep priority on ties. -/
def insertDesc (x : SNode) : List SNode → List SNode
  | [] => [x]
  | y :: ys => if y.score ≤ x.score then x :: y :: ys else y :: insertDesc x ys

/-- Python's `list.sort(key=score, reverse=True)` is a stable descending
sort; modelled as a stable insertion sort. -/
def sortDesc (l : List SNode) : List SNode :=
  l.foldr insertDesc []

/-- The pool update of `app.py` lines 87-91: keep exactly the remaining
nodes whose distance to the just-selected node is strictly greater
than 10 km. -/
def keepFar (best : SNode) (rest : List SNode) : List SNode :=
  rest.filter fun n => decide (10 < haversine best.lat best.lon n.lat n.lon)

/-- One round of the greedy loop: sort the pool by descending score, pop
the head, and drop every remaining node within 10 km of it.  Returns
`none` exactly when the pool is empty. -/
def selectRound (pool : List SNode) : Option (SNode × List SNode) :=
  match sortDesc pool with
  | [] => none
  | best :: rest => some (best, keepFar best rest)

/-- The greedy selection loop of `app.py` lines 81-91: up to `k` rounds,
stopping early when the pool is exhausted. -/
def greedyGo : ℕ → List SNode → List SNode
  | 0, _ => []
  | k + 1, pool =>
    match selectRound pool with
    | none => []
    | some (best, next) => best :: greedyGo k next

/-- State of the globally seeded pseudo-random generator: the seed that
was last set and the number of samples drawn since. -/
structure RngState where
  seed : ℕ
  idx : ℕ

/-- `np.random.seed(42)`: overwrite the global generator state. -/
def seed42 (_ : RngState) : RngState := ⟨42, 0⟩

/-- One `np.random.uniform(low, high)` draw: `low + (high - low) * u`
where `u` is the next sample of the deterministic stream `U` keyed by
the current seed. -/
def uniformDraw (U : ℕ → ℕ → ℝ) (low high : ℝ) (g : RngState) : ℝ × RngState :=
  (low + (high - low) * U g.seed g.idx, ⟨g.seed, g.idx + 1⟩)

/-- Candidate generation (`app.py` line 61): `n` nodes, each drawing a
latitude then a longitude from the seeded stream. -/
def genNodes (U : ℕ → ℕ → ℝ) (r : Region) : ℕ → RngState → List Cand × RngState
  | 0, g => ([], g)
  | n + 1, g =>
    let latDraw := uniformDraw U r.latMin r.latMax g
    let lonDraw := uniformDraw U r.lonMin r.lonMax latDraw.2
    let rest := genNodes U r n lonDraw.2
    (⟨latDraw.1, lonDraw.1⟩ :: rest.1, rest.2)

/-- The inputs collected from the form before the Optimize button. -/
structure Inputs where
  region : Region
  centers : List Center
  rural : ℝ
  anchor : Anchor

/-- The full Optimize handler (`app.py` lines 58-91): re-seed the global
generator with 42, generate 100 candidates, score them against the
once-computed `Dmax`, and run the greedy selection for 10 nodes.
Returns the selection together with the resulting generator state. -/
def runOptimize (U : ℕ → ℕ → ℝ) (inp : Inputs) (g : RngState) :
    List SNode × RngState :=
  let gen := genNodes U inp.region 100 (seed42 g)
  let results := scoreNodes inp.centers inp.rural inp.anchor
    (Dmax inp.region) 0 gen.1
  (greedyGo 10 results, gen.2)

/-- A display row of the results table (`app.py` lines 97-98). -/
structure Row where
  rname : String
  lat : ℝ
  lon : ℝ
  coverage : ℝ
  aqi : ℝ
  score : ℝ

/-- Rounding to `d` decimal places, modelling the fixed-precision
format specifiers of the table. -/
def roundTo (d : ℕ) (x : ℝ) : ℝ := (round (x * 10 ^ d) : ℤ) / 10 ^ d

/-- One table row: the stored name verbatim, lat/lon to 4 decimals,
coverage to 1, AQI and score to 2. -/
def rowOf (n : SNode) : Row :=
  ⟨n.sname, roundTo 4 n.lat, roundTo 4 n.lon, roundTo 1 n.coverage,
    roundTo 2 n.aqi, roundTo 2 n.score⟩

/-- The display loop of `app.py` lines 97-98, one row per selected node
in selection order. -/
def displayRows : List SNode → List Row
  | [] => []
  | n :: ns => rowOf n :: displayRows ns

theorem mem_insertDesc {x y : SNode} {l : List SNode} :
    y ∈ insertDesc x l ↔ y = x ∨ y ∈ l := by
  induction l with
  | nil => simp [insertDesc]
  | cons z zs ih =>
    by_cases h : z.score ≤ x.score
    · simp [insertDesc, h]
    · simp [insertDesc, h, ih]
      tauto

theorem mem_sortDesc {y : SNode} {l : List SNode} :
    y ∈ sortDesc l ↔ y ∈ l := by
  induction l with
  | nil => simp [sortDesc]
  | cons z zs ih =>
    simp only [sortDesc, List.foldr_cons] at *
    rw [mem_insertDesc, ih, List.mem_cons]

theorem insertDesc_length (x : SNode) (l : List SNode) :
    (insertDesc x l).length = l.length + 1 := by
  induction l with
  | nil => simp [insertDesc]
  | cons z zs ih =>
    by_cases h : z.score ≤ x.score
    · simp [insertDesc, h]
    · simp [insertDesc, h, ih]

theorem sortDesc_length (l : List SNode) :
    (sortDesc l).length = l.length := by
  induction l with
  | nil => simp [sortDesc]
  | cons z zs ih =>
    simp only [sortDesc, List.foldr_cons] at *
    rw [insertDesc_length, ih, List.length_cons]

theorem mem_keepFar {best n : SNode} {rest : List SNode} :
    n ∈ keepFar best rest ↔
      n ∈ rest ∧ 10 < haversine best.lat best.lon n.lat n.lon := by
  simp [keepFar, List.mem_filter]

theorem selectRound_eq_none {pool : List SNode} :
    selectRound pool = none ↔ pool = [] := by
  constructor
  · intro h
    rcases e : sortDesc pool with _ | ⟨b, r⟩
    · have : (sortDesc pool).length = 0 := by rw [e]; rfl
      rw [sortDesc_length] at this
      exact List.length_eq_zero.mp this
    · rw [selectRound, e] at h
      simp at h
  · intro h
    subst h
    rfl

theorem selectRound_some {pool : List SNode} {best : SNode}
    {next : List SNode} (h : selectRound pool = some (best, next)) :
    ∃ rest, sortDesc pool = best :: rest ∧ next = keepFar best rest := by
  rcases e : sortDesc pool with _ | ⟨b, r⟩
  · rw [selectRound, e] at h; simp at h
  · rw [selectRound, e] at h
    simp only [Option.some.injEq, Prod.mk.injEq] at h
    obtain ⟨hb, hn⟩ := h
    subst hb
    exact ⟨r, rfl, hn.symm⟩

theorem selectRound_best_mem {pool : List SNode} {best : SNode}
    {next : List SNode} (h : selectRound pool = some (best, next)) :
    best ∈ pool := by
  obtain ⟨rest, hs, _⟩ := selectRound_some h
  have : best ∈ sortDesc pool := by rw [hs]; exact List.mem_cons_self _ _
  exact mem_sortDesc.mp this

theorem selectRound_next_subset {pool : List SNode} {best : SNode}
    {next : List SNode} (h : selectRound pool = some (best, next)) :
    ∀ n ∈ next, n ∈ pool := by
  obtain ⟨rest, hs, hn⟩ := selectRound_some h
  intro n hmem
  rw [hn] at hmem
  have hr : n ∈ rest := (mem_keepFar.mp hmem).1
  have : n ∈ sortDesc pool := by rw [hs]; exact List.mem_cons_of_mem _ hr
  exact mem_sortDesc.mp this

theorem selectRound_next_far {pool : List SNode} {best : SNode}
    {next : List SNode} (h : selectRound pool = some (best, next)) :
    ∀ n ∈ next, 10 < haversine best.lat best.lon n.lat n.lon := by
  obtain ⟨rest, _, hn⟩ := selectRound_some h
  intro n hmem
  rw [hn] at hmem
  exact (mem_keepFar.mp hmem).2

theorem selectRound_next_length {pool : List SNode} {best : SNode}
    {next : List SNode} (h : selectRound pool = some (best, next)) :
    next.length < pool.length := by
  obtain ⟨rest, hs, hn⟩ := selectRound_some h
  have hlen : pool.length = rest.length + 1 := by
    rw [← sortDesc_length pool, hs, List.length_cons]
  have : next.length ≤ rest.length := by
    rw [hn]; exact List.length_filter_le _ _
  omega

theorem selectRound_of_ne_nil {pool : List SNode} (h : pool ≠ []) :
    ∃ best next, selectRound pool = some (best, next) := by
  rcases e : selectRound pool with _ | ⟨b, nx⟩
  · exact absurd (selectRound_eq_none.mp e) h
  · exact ⟨b, nx, rfl⟩

theorem greedyGo_subset :
    ∀ (k : ℕ) (pool : List SNode), ∀ x ∈ greedyGo k pool, x ∈ pool := by
  intro k
  induction k with
  | zero => intro pool x hx; simp [greedyGo] at hx
  | succ k ih =>
    intro pool x hx
    rcases e : selectRound pool with _ | ⟨b, nx⟩
    · rw [greedyGo, e] at hx; simp at hx
    · rw [greedyGo, e] at hx
      rcases List.mem_cons.mp hx with h | h
      · rw [h]; exact selectRound_best_mem e
      · exact selectRound_next_subset e x (ih nx x h)

theorem greedyGo_pairwise_far :
    ∀ (k : ℕ) (pool : List SNode),
      (greedyGo k pool).Pairwise
        (fun a b => 10 < haversine a.lat a.lon b.lat b.lon) := by
  intro k
  induction k with
  | zero => intro pool; simp [greedyGo]
  | succ k ih =>
    intro pool
    rcases e : selectRound pool with _ | ⟨b, nx⟩
    · rw [greedyGo, e]; simp
    · rw [greedyGo, e]
      refine List.Pairwise.cons ?_ (ih nx)
      intro x hx
      exact selectRound_next_far e x (greedyGo_subset k nx x hx)

theorem greedyGo_length_le (k : ℕ) (pool : List SNode) :
    (greedyGo k pool).length ≤ k := by
  induction k generalizing pool with
  | zero => simp [greedyGo]
  | succ k ih =>
    rcases e : selectRound pool with _ | ⟨b, nx⟩
    · rw [greedyGo, e]; simp
    · rw [greedyGo, e, List.length_cons]
      exact Nat.succ_le_succ (ih nx)

theorem greedyGo_length_le_pool (k : ℕ) (pool : List SNode) :
    (greedyGo k pool).length ≤ pool.length := by
  induction k generalizing pool with
  | zero => simp [greedyGo]
  | succ k ih =>
    rcases e : selectRound pool with _ | ⟨b, nx⟩
    · rw [greedyGo, e]; simp
    · rw [greedyGo, e, List.length_cons]
      have h1 : (greedyGo k nx).length ≤ nx.length := ih nx
      have h2 : nx.length < pool.length := selectRound_next_length e
      omega

theorem greedyGo_ne_nil {k : ℕ} {pool : List SNode}
    (hk : 0 < k) (hp : pool ≠ []) : greedyGo k pool ≠ [] := by
  obtain ⟨k', rfl⟩ : ∃ k', k = k' + 1 := ⟨k - 1, by omega⟩
  obtain ⟨b, nx, e⟩ := selectRound_of_ne_nil hp
  rw [greedyGo, e]
  simp

theorem genNodes_length (U : ℕ → ℕ → ℝ) (r : Region) (n : ℕ) (g : RngState) :
    (genNodes U r n g).1.length = n := by
  induction n generalizing g with
  | zero => rfl
  | succ n ih => simp [genNodes, ih]

theorem scoreNodes_length (centers : List Center) (rural : ℝ)
    (anchor : Anchor) (dmax : ℝ) (i : ℕ) (nodes : List Cand) :
    (scoreNodes centers rural anchor dmax i nodes).length = nodes.length := by
  induction nodes generalizing i with
  | nil => rfl
  | cons c cs ih => simp [scoreNodes, ih]

theorem coverageOf_of_no_match {lat lon rural : ℝ} {centers : List Center}
    (h : ∀ ct ∈ centers, ¬ haversine lat lon ct.lat ct.lon < 10) :
    coverageOf lat lon centers rural = rural * (π * 10 ^ 2) := by
  induction centers with
  | nil => rfl
  | cons c cs ih =>
    rw [coverageOf, if_neg (h c (List.mem_cons_self _ _))]
    exact ih fun ct hct => h ct (List.mem_cons_of_mem _ hct)

theorem coverageOf_first {lat lon rural : ℝ} (pre : List Center) (ct : Center)
    (post : List Center)
    (hpre : ∀ p ∈ pre, ¬ haversine lat lon p.lat p.lon < 10)
    (hct : haversine lat lon ct.lat ct.lon < 10) :
    coverageOf lat lon (pre ++ ct :: post) rural = ct.pop := by
  induction pre with
  | nil =>
    rw [List.nil_append, coverageOf, if_pos hct]
  | cons p ps ih =>
    rw [List.cons_append, coverageOf,
      if_neg (hpre p (List.mem_cons_self _ _))]
    exact ih fun q hq => hpre q (List.mem_cons_of_mem _ hq)

/-- Claim C1: for every candidate, the computed coverage is the rural
baseline `rural_density * π * 10²` unless the candidate is strictly
within 10 km of some population center, in which case it is the
population of the first such center in iteration order (a full
override). -/
theorem C1_coverage (centers : List Center) (rural dmax : ℝ) (anchor : Anchor)
    (i : ℕ) (c : Cand) :
    ((∀ ct ∈ centers, ¬ haversine c.lat c.lon ct.lat ct.lon < 10) →
      (scoreOne centers rural anchor dmax i c).coverage = rural * (π * 10 ^ 2)) ∧
    (∀ pre ct post, centers = pre ++ ct :: post →
      (∀ p ∈ pre, ¬ haversine c.lat c.lon p.lat p.lon < 10) →
      haversine c.lat c.lon ct.lat ct.lon < 10 →
      (scoreOne centers rural anchor dmax i c).coverage = ct.pop) := by
  constructor
  · intro h
    exact coverageOf_of_no_match h
  · intro pre ct post hsplit hpre hct
    show coverageOf c.lat c.lon centers rural = ct.pop
    rw [hsplit]
    exact coverageOf_first pre ct post hpre hct

/-- Witness for C1: with no centers the rural fallback fires, and with a
single center 0 km away the coverage is exactly that center's
population. -/
theorem C1_coverage_witness :
    (scoreOne [] 2 ⟨0, 0, 65⟩ 1 0 ⟨0, 0⟩).coverage = 2 * (π * 10 ^ 2) ∧
    (scoreOne [⟨"Town", 0, 0, 777⟩] 2 ⟨0, 0, 65⟩ 1 0 ⟨0, 0⟩).coverage = 777 := by
  constructor
  · exact (C1_coverage [] 2 1 ⟨0, 0, 65⟩ 0 ⟨0, 0⟩).1 (by simp)
  · have h10 : haversine (Cand.lat ⟨0, 0⟩) (Cand.lon ⟨0, 0⟩)
        (Center.lat ⟨"Town", 0, 0, 777⟩) (Center.lon ⟨"Town", 0, 0, 777⟩) < 10 := by
      show haversine 0 0 0 0 < 10
      rw [haversine_self]; norm_num
    exact (C1_coverage [⟨"Town", 0, 0, 777⟩] 2 1 ⟨0, 0, 65⟩ 0 ⟨0, 0⟩).2
      [] ⟨"Town", 0, 0, 777⟩ [] rfl (by simp) h10

/-- Claim C2: every scored candidate's pollution index is
`max 30 (65 - (d/Dmax)·35)` for the once-computed region constant
`Dmax` (the larger diagonal), and its score is
`coverage - 0.5 * pollutionIndex`. -/
theorem C2_pollution_score (centers : List Center) (rural : ℝ) (anchor : Anchor)
    (region : Region) (i : ℕ) (nodes : List Cand) :
    ∀ r ∈ scoreNodes centers rural anchor (Dmax region) i nodes,
      r.aqi = max 30
        (65 - haversine r.lat r.lon anchor.lat anchor.lon / Dmax region * 35) ∧
      r.score = r.coverage - 0.5 * r.aqi := by
  induction nodes generalizing i with
  | nil => intro r hr; simp [scoreNodes] at hr
  | cons c cs ih =>
    intro r hr
    rw [scoreNodes] at hr
    rcases List.mem_cons.mp hr with h | h
    · subst h
      exact ⟨rfl, rfl⟩
    · exact ih (i + 1) r h

/-- Witness for C2 at a concrete one-candidate pool. -/
theorem C2_pollution_score_witness :
    scoreOne [] 0 ⟨0, 0, 65⟩ (Dmax ⟨0, 0, 1, 1⟩) 0 ⟨0, 0⟩ ∈
      scoreNodes [] 0 ⟨0, 0, 65⟩ (Dmax ⟨0, 0, 1, 1⟩) 0 [⟨0, 0⟩] ∧
    ((scoreOne [] 0 ⟨0, 0, 65⟩ (Dmax ⟨0, 0, 1, 1⟩) 0 ⟨0, 0⟩).aqi = max 30
        (65 - haversine (scoreOne [] 0 ⟨0, 0, 65⟩ (Dmax ⟨0, 0, 1, 1⟩) 0 ⟨0, 0⟩).lat
          (scoreOne [] 0 ⟨0, 0, 65⟩ (Dmax ⟨0, 0, 1, 1⟩) 0 ⟨0, 0⟩).lon
          (Anchor.lat ⟨0, 0, 65⟩) (Anchor.lon ⟨0, 0, 65⟩) / Dmax ⟨0, 0, 1, 1⟩ * 35) ∧
      (scoreOne [] 0 ⟨0, 0, 65⟩ (Dmax ⟨0, 0, 1, 1⟩) 0 ⟨0, 0⟩).score =
        (scoreOne [] 0 ⟨0, 0, 65⟩ (Dmax ⟨0, 0, 1, 1⟩) 0 ⟨0, 0⟩).coverage -
          0.5 * (scoreOne [] 0 ⟨0, 0, 65⟩ (Dmax ⟨0, 0, 1, 1⟩) 0 ⟨0, 0⟩).aqi) :=
  ⟨by simp [scoreNodes],
    C2_pollution_score [] 0 ⟨0, 0, 65⟩ ⟨0, 0, 1, 1⟩ 0 [⟨0, 0⟩] _
      (by simp [scoreNodes])⟩

/-- Claim C3: any two sites of a greedy selection are at haversine
distance at least 10 km from each other (both orientations). -/
theorem C3_diversity (k : ℕ) (pool : List SNode) :
    (greedyGo k pool).Pairwise
      (fun a b => 10 ≤ haversine a.lat a.lon b.lat b.lon ∧
        10 ≤ haversine b.lat b.lon a.lat a.lon) := by
  refine (greedyGo_pairwise_far k pool).imp ?_
  intro a b h
  refine ⟨le_of_lt h, ?_⟩
  rw [haversine_symm]
  exact le_of_lt h

/-- Unfolding of the optimize handler: the incoming generator state is
discarded by the re-seed, leaving a pure function of the inputs. -/
theorem runOptimize_eq (U : ℕ → ℕ → ℝ) (inp : Inputs) (g : RngState) :
    runOptimize U inp g =
      (greedyGo 10 (scoreNodes inp.centers inp.rural inp.anchor
          (Dmax inp.region) 0 (genNodes U inp.region 100 ⟨42, 0⟩).1),
        (genNodes U inp.region 100 ⟨42, 0⟩).2) := rfl

/-- Component form of `runOptimize_eq` for concrete input records. -/
theorem runOptimize_mk (U : ℕ → ℕ → ℝ) (region : Region)
    (centers : List Center) (rural : ℝ) (anchor : Anchor) (g : RngState) :
    runOptimize U ⟨region, centers, rural, anchor⟩ g =
      (greedyGo 10 (scoreNodes centers rural anchor
          (Dmax region) 0 (genNodes U region 100 ⟨42, 0⟩).1),
        (genNodes U region 100 ⟨42, 0⟩).2) := rfl

/-- Claim C7: the optimize handler's output is independent of the
incoming global generator state (it re-seeds with 42 first), so two
invocations on the same inputs, including back-to-back runs, return the
identical selection. -/
theorem C7_determinism (U : ℕ → ℕ → ℝ) (inp : Inputs) (g1 g2 : RngState) :
    (runOptimize U inp g1).1 = (runOptimize U inp g2).1 ∧
    (runOptimize U inp (runOptimize U inp g1).2).1 = (runOptimize U inp g1).1 := by
  simp only [runOptimize_eq]
  exact ⟨trivial, trivial⟩

/-- Claim C8: the selector returns at most `k` nodes, never more than
the pool holds, and never the same node twice. -/
theorem C8_selector (k : ℕ) (pool : List SNode) :
    (greedyGo k pool).length ≤ k ∧
    (greedyGo k pool).length ≤ pool.length ∧
    (greedyGo k pool).Nodup := by
  refine ⟨greedyGo_length_le k pool, greedyGo_length_le_pool k pool, ?_⟩
  show (greedyGo k pool).Pairwise _
  refine (greedyGo_pairwise_far k pool).imp ?_
  intro a b h hab
  rw [hab, haversine_self] at h
  norm_num at h

/-- Claim C9: from a nonempty pool, one greedy round always succeeds and
strictly shrinks the pool, and the selection never exceeds the round
budget `k`. -/
theorem C9_termination (pool : List SNode) (h : pool ≠ []) :
    (∃ best next, selectRound pool = some (best, next) ∧
      next.length < pool.length) ∧
    ∀ k, (greedyGo k pool).length ≤ k := by
  obtain ⟨b, nx, e⟩ := selectRound_of_ne_nil h
  exact ⟨⟨b, nx, e, selectRound_next_length e⟩,
    fun k => greedyGo_length_le k pool⟩

/-- Witness for C9 at a one-node pool and round budget 3. -/
theorem C9_termination_witness :
    ([(⟨"A", 0, 0, 0, 0, 0⟩ : SNode)] ≠ []) ∧
    ((∃ best next, selectRound [(⟨"A", 0, 0, 0, 0, 0⟩ : SNode)] = some (best, next) ∧
        next.length < [(⟨"A", 0, 0, 0, 0, 0⟩ : SNode)].length) ∧
      (greedyGo 3 [(⟨"A", 0, 0, 0, 0, 0⟩ : SNode)]).length ≤ 3) := by
  have h : [(⟨"A", 0, 0, 0, 0, 0⟩ : SNode)] ≠ [] := by simp
  exact ⟨h, (C9_termination _ h).1, (C9_termination _ h).2 3⟩

/-- Claim C6 is a code bug: the app performs no region validation at
all.  With an inverted region (latMin = 1 > 0 = latMax) the pipeline
still generates exactly 100 candidates and returns a nonempty
selection, instead of rejecting with zero nodes and a message. -/
theorem C6_no_validation (U : ℕ → ℕ → ℝ) (g : RngState) :
    Region.latMax ⟨1, 36.75, 0, 37.75⟩ ≤ Region.latMin ⟨1, 36.75, 0, 37.75⟩ ∧
    (genNodes U ⟨1, 36.75, 0, 37.75⟩ 100 (seed42 g)).1.length = 100 ∧
    (runOptimize U ⟨⟨1, 36.75, 0, 37.75⟩, [], 165, ⟨1, 36.75, 65⟩⟩ g).1 ≠ [] := by
  refine ⟨by norm_num, genNodes_length U _ 100 _, ?_⟩
  rw [runOptimize_mk]
  dsimp only
  refine greedyGo_ne_nil (by norm_num) ?_
  intro hnil
  have hlen := congrArg List.length hnil
  rw [scoreNodes_length, genNodes_length] at hlen
  simp at hlen

/-- Counterexample to C10: a region satisfying only the min-strictly-
below-max invariant can still give `Dmax = 0` when the degrees are out
of range, e.g. bounds spanning a full 360° on both axes. -/
theorem C10_counterexample :
    (Region.latMin ⟨0, 0, 360, 360⟩ < Region.latMax ⟨0, 0, 360, 360⟩) ∧
    (Region.lonMin ⟨0, 0, 360, 360⟩ < Region.lonMax ⟨0, 0, 360, 360⟩) ∧
    ¬ (0 < Dmax ⟨0, 0, 360, 360⟩) := by
  refine ⟨by norm_num, by norm_num, ?_⟩
  have hz : Dmax ⟨0, 0, 360, 360⟩ = 0 := by
    show max (haversine 0 0 360 360) (haversine 0 360 360 0) = 0
    rw [hav_360_a, hav_360_b]
    simp
  rw [hz]
  norm_num

/-- Claim C10 amended: for regions whose latitudes also lie in the
valid degree range [-90, 90], the normalization constant `Dmax` is
strictly positive, so the AQI division is by a nonzero number. -/
theorem C10_dmax_pos (r : Region) (h0 : -90 ≤ r.latMin)
    (h1 : r.latMin < r.latMax) (h2 : r.latMax ≤ 90)
    (h3 : r.lonMin < r.lonMax) : 0 < Dmax r :=
  lt_of_lt_of_le (@hav_pos_of_lat r.latMin r.lonMin r.latMax r.lonMax h0 h1 h2)
    (le_max_left _ _)

/-- Witness for the amended C10 at the spec's example region. -/
theorem C10_dmax_pos_witness :
    ((-90:ℝ) ≤ Region.latMin ⟨-1.5167, 36.75, -0.75, 37.75⟩ ∧
      Region.latMin ⟨-1.5167, 36.75, -0.75, 37.75⟩ <
        Region.latMax ⟨-1.5167, 36.75, -0.75, 37.75⟩ ∧
      Region.latMax ⟨-1.5167, 36.75, -0.75, 37.75⟩ ≤ 90 ∧
      Region.lonMin ⟨-1.5167, 36.75, -0.75, 37.75⟩ <
        Region.lonMax ⟨-1.5167, 36.75, -0.75, 37.75⟩) ∧
    0 < Dmax ⟨-1.5167, 36.75, -0.75, 37.75⟩ := by
  refine ⟨⟨by norm_num, by norm_num, by norm_num, by norm_num⟩, ?_⟩
  exact C10_dmax_pos ⟨-1.5167, 36.75, -0.75, 37.75⟩ (by norm_num) (by norm_num)
    (by norm_num) (by norm_num)

/-- Counterexample to C4: two nodes on the same meridian at haversine
distance exactly 10 km.  After the higher-scoring node is selected, the
other one is removed from the pool (the code keeps only nodes strictly
farther than 10 km), whereas the claim says a node at exactly 10 km
stays eligible. -/
theorem C4_counterexample :
    haversine 0 0 (1800 / (6371 * π)) 0 = 10 ∧
    selectRound [(⟨"A", 0, 0, 0, 0, 1⟩ : SNode),
        ⟨"B", 1800 / (6371 * π), 0, 0, 0, 0⟩] =
      some (⟨"A", 0, 0, 0, 0, 1⟩, []) := by
  refine ⟨hav_exact10, ?_⟩
  have hsort : sortDesc [(⟨"A", 0, 0, 0, 0, 1⟩ : SNode),
      ⟨"B", 1800 / (6371 * π), 0, 0, 0, 0⟩] =
      [⟨"A", 0, 0, 0, 0, 1⟩, ⟨"B", 1800 / (6371 * π), 0, 0, 0, 0⟩] := by
    simp only [sortDesc, List.foldr_cons, List.foldr_nil, insertDesc]
    norm_num
  have hkeep : keepFar (⟨"A", 0, 0, 0, 0, 1⟩ : SNode)
      [⟨"B", 1800 / (6371 * π), 0, 0, 0, 0⟩] = [] := by
    rw [keepFar]
    refine List.filter_eq_nil_iff.mpr ?_
    intro a ha
    rw [List.mem_singleton] at ha
    subst ha
    rw [decide_eq_true_eq]
    show ¬ 10 < haversine 0 0 (1800 / (6371 * π)) 0
    rw [hav_exact10]
    exact lt_irrefl 10
  simp only [selectRound, hsort, hkeep]

/-- Claim C4 amended: after a selection round, a node of the remaining
pool survives if and only if its distance to the just-selected node is
strictly greater than 10 km — so nodes at exactly 10 km are removed,
not kept. -/
theorem C4_removal (pool : List SNode) (best : SNode) (next : List SNode)
    (h : selectRound pool = some (best, next)) (n : SNode)
    (hn : n ∈ (sortDesc pool).tail) :
    n ∈ next ↔ 10 < haversine best.lat best.lon n.lat n.lon := by
  obtain ⟨rest, hs, hnext⟩ := selectRound_some h
  rw [hs, List.tail_cons] at hn
  rw [hnext, mem_keepFar]
  exact and_iff_right hn

/-- Witness for the amended C4: with two far-apart nodes, the round
selects the higher-scoring one and the other survives the filter. -/
theorem C4_removal_witness :
    selectRound [(⟨"A", 0, 0, 0, 0, 1⟩ : SNode), ⟨"B", 90, 0, 0, 0, 0⟩] =
      some (⟨"A", 0, 0, 0, 0, 1⟩, [⟨"B", 90, 0, 0, 0, 0⟩]) ∧
    (⟨"B", 90, 0, 0, 0, 0⟩ : SNode) ∈
      (sortDesc [(⟨"A", 0, 0, 0, 0, 1⟩ : SNode), ⟨"B", 90, 0, 0, 0, 0⟩]).tail ∧
    ((⟨"B", 90, 0, 0, 0, 0⟩ : SNode) ∈ [(⟨"B", 90, 0, 0, 0, 0⟩ : SNode)] ↔
      10 < haversine 0 0 90 0) := by
  have hsort : sortDesc [(⟨"A", 0, 0, 0, 0, 1⟩ : SNode), ⟨"B", 90, 0, 0, 0, 0⟩] =
      [⟨"A", 0, 0, 0, 0, 1⟩, ⟨"B", 90, 0, 0, 0, 0⟩] := by
    simp only [sortDesc, List.foldr_cons, List.foldr_nil, insertDesc]
    norm_num
  have hkeep : keepFar (⟨"A", 0, 0, 0, 0, 1⟩ : SNode) [⟨"B", 90, 0, 0, 0, 0⟩] =
      [⟨"B", 90, 0, 0, 0, 0⟩] := by
    rw [keepFar, List.filter_cons]
    rw [decide_eq_true (show (10:ℝ) < haversine 0 0 90 0 by
      rw [hav_0_90]; exact ten_lt_quarter)]
    simp
  have hsel : selectRound [(⟨"A", 0, 0, 0, 0, 1⟩ : SNode), ⟨"B", 90, 0, 0, 0, 0⟩] =
      some (⟨"A", 0, 0, 0, 0, 1⟩, [⟨"B", 90, 0, 0, 0, 0⟩]) := by
    simp only [selectRound, hsort, hkeep]
  have hmem : (⟨"B", 90, 0, 0, 0, 0⟩ : SNode) ∈
      (sortDesc [(⟨"A", 0, 0, 0, 0, 1⟩ : SNode), ⟨"B", 90, 0, 0, 0, 0⟩]).tail := by
    rw [hsort, List.tail_cons]
    exact List.mem_singleton.mpr rfl
  exact ⟨hsel, hmem, C4_removal _ _ _ hsel _ hmem⟩

theorem hav_90_0 : haversine 90 0 0 0 = 6371 * (π / 2) := by
  rw [haversine_symm]
  exact hav_0_90

theorem scoreOne_c1_eq :
    scoreOne [⟨"C", 90, 0, 1000⟩] 0 ⟨0, 0, 65⟩ 1 0 ⟨0, 0⟩ =
      (⟨"Node-01", 0, 0, 0, 65, 0 - 0.5 * 65⟩ : SNode) := by
  have hfar : ¬ haversine 0 0 90 0 < 10 := by
    rw [hav_0_90]
    exact not_lt.mpr (le_of_lt ten_lt_quarter)
  have hself : haversine 0 0 0 0 = 0 := haversine_self 0 0
  simp only [scoreOne, coverageOf, SNode.mk.injEq]
  refine ⟨rfl, trivial, trivial, ?_, ?_, ?_⟩
  · rw [if_neg hfar]
    norm_num
  · rw [hself]
    rw [show (65:ℝ) - 0 / 1 * 35 = 65 by norm_num]
    exact max_eq_right (by norm_num)
  · rw [if_neg hfar, hself]
    rw [show (65:ℝ) - 0 / 1 * 35 = 65 by norm_num]
    rw [max_eq_right (by norm_num : (30:ℝ) ≤ 65)]
    norm_num

theorem scoreOne_c2_eq :
    scoreOne [⟨"C", 90, 0, 1000⟩] 0 ⟨0, 0, 65⟩ 1 1 ⟨90, 0⟩ =
      (⟨"Node-02", 90, 0, 1000, 30, 1000 - 0.5 * 30⟩ : SNode) := by
  have hnear : haversine 90 0 90 0 < 10 := by
    rw [haversine_self]
    norm_num
  have hanchor : haversine 90 0 0 0 = 6371 * (π / 2) := hav_90_0
  have haqi : max (30:ℝ) (65 - 6371 * (π / 2) / 1 * 35) = 30 := by
    refine max_eq_left ?_
    nlinarith [Real.pi_gt_three]
  simp only [scoreOne, coverageOf, SNode.mk.injEq]
  refine ⟨rfl, trivial, trivial, ?_, ?_, ?_⟩
  · rw [if_pos hnear]
  · rw [hanchor, haqi]
  · rw [if_pos hnear, hanchor, haqi]

theorem greedyGo_succ (k : ℕ) (pool : List SNode) :
    greedyGo (k + 1) pool =
      match selectRound pool with
      | none => []
      | some (best, next) => best :: greedyGo k next := rfl

theorem greedyGo_nil (k : ℕ) : greedyGo k [] = [] := by
  cases k <;> rfl

/-- Counterexample to C5: on a two-candidate pool where the second
generated candidate outscores the first, the first displayed row keeps
its scoring-time name "Node-02" (index in the generated pool), not
"Node-01" (selection position) as the claim requires. -/
theorem C5_counterexample :
    ((displayRows (greedyGo 10 (scoreNodes [⟨"C", 90, 0, 1000⟩] 0 ⟨0, 0, 65⟩ 1 0
        [⟨0, 0⟩, ⟨90, 0⟩]))).map Row.rname).head? = some "Node-02" ∧
    "Node-02" ≠ "Node-01" := by
  refine ⟨?_, by decide⟩
  have hscore : scoreNodes [⟨"C", 90, 0, 1000⟩] 0 ⟨0, 0, 65⟩ 1 0 [⟨0, 0⟩, ⟨90, 0⟩] =
      [⟨"Node-01", 0, 0, 0, 65, 0 - 0.5 * 65⟩,
        ⟨"Node-02", 90, 0, 1000, 30, 1000 - 0.5 * 30⟩] := by
    simp only [scoreNodes, Nat.zero_add]
    rw [scoreOne_c1_eq, scoreOne_c2_eq]
  rw [hscore]
  have hsort2 : sortDesc [(⟨"Node-01", 0, 0, 0, 65, 0 - 0.5 * 65⟩ : SNode),
      ⟨"Node-02", 90, 0, 1000, 30, 1000 - 0.5 * 30⟩] =
      [⟨"Node-02", 90, 0, 1000, 30, 1000 - 0.5 * 30⟩,
        ⟨"Node-01", 0, 0, 0, 65, 0 - 0.5 * 65⟩] := by
    simp only [sortDesc, List.foldr_cons, List.foldr_nil, insertDesc]
    norm_num
  have hkeep2 : keepFar (⟨"Node-02", 90, 0, 1000, 30, 1000 - 0.5 * 30⟩ : SNode)
      [⟨"Node-01", 0, 0, 0, 65, 0 - 0.5 * 65⟩] =
      [⟨"Node-01", 0, 0, 0, 65, 0 - 0.5 * 65⟩] := by
    rw [keepFar, List.filter_cons]
    rw [decide_eq_true (show (10:ℝ) < haversine 90 0 0 0 by
      rw [hav_90_0]; exact ten_lt_quarter)]
    simp
  have hsel1 : selectRound [(⟨"Node-01", 0, 0, 0, 65, 0 - 0.5 * 65⟩ : SNode),
      ⟨"Node-02", 90, 0, 1000, 30, 1000 - 0.5 * 30⟩] =
      some (⟨"Node-02", 90, 0, 1000, 30, 1000 - 0.5 * 30⟩,
        [⟨"Node-01", 0, 0, 0, 65, 0 - 0.5 * 65⟩]) := by
    simp only [selectRound, hsort2, hkeep2]
  have hsort1 : sortDesc [(⟨"Node-01", 0, 0, 0, 65, 0 - 0.5 * 65⟩ : SNode)] =
      [⟨"Node-01", 0, 0, 0, 65, 0 - 0.5 * 65⟩] := by
    simp only [sortDesc, List.foldr_cons, List.foldr_nil, insertDesc]
  have hsel2 : selectRound [(⟨"Node-01", 0, 0, 0, 65, 0 - 0.5 * 65⟩ : SNode)] =
      some (⟨"Node-01", 0, 0, 0, 65, 0 - 0.5 * 65⟩, []) := by
    simp only [selectRound, hsort1, keepFar, List.filter_nil]
  have hgo : greedyGo 10 [(⟨"Node-01", 0, 0, 0, 65, 0 - 0.5 * 65⟩ : SNode),
      ⟨"Node-02", 90, 0, 1000, 30, 1000 - 0.5 * 30⟩] =
      [⟨"Node-02", 90, 0, 1000, 30, 1000 - 0.5 * 30⟩,
        ⟨"Node-01", 0, 0, 0, 65, 0 - 0.5 * 65⟩] := by
    show greedyGo (9 + 1) _ = _
    rw [greedyGo_succ, hsel1]
    show (⟨"Node-02", 90, 0, 1000, 30, 1000 - 0.5 * 30⟩ : SNode) ::
      greedyGo (8 + 1) [⟨"Node-01", 0, 0, 0, 65, 0 - 0.5 * 65⟩] = _
    rw [greedyGo_succ, hsel2]
    show (⟨"Node-02", 90, 0, 1000, 30, 1000 - 0.5 * 30⟩ : SNode) ::
      (⟨"Node-01", 0, 0, 0, 65, 0 - 0.5 * 65⟩ : SNode) :: greedyGo 8 [] = _
    rw [greedyGo_nil]
  rw [hgo]
  rfl

/-- Claim C5 amended: the display names are assigned at scoring time
from the candidate's position in the generated pool ("Node-" plus the
zero-padded 1-based pool index), and the formatter emits one row per
selected node in selection order, copying the stored name and rounding
the stored numeric fields (lat/lon to 4, coverage to 1, AQI and score
to 2 decimals) without recomputing them. -/
theorem C5_naming (centers : List Center) (rural : ℝ) (anchor : Anchor)
    (dmax : ℝ) (i : ℕ) (nodes : List Cand) (sel : List SNode) :
    (scoreNodes centers rural anchor dmax i nodes).map SNode.sname =
      (List.range nodes.length).map (fun j => "Node-" ++ pad2 (i + j + 1)) ∧
    displayRows sel = sel.map rowOf := by
  constructor
  · induction nodes generalizing i with
    | nil => simp [scoreNodes]
    | cons c cs ih =>
      have harith : ∀ j : ℕ, i + (j + 1) + 1 = (i + 1) + j + 1 := by omega
      simp only [scoreNodes, List.map_cons, List.length_cons,
        List.range_succ_eq_map, List.map_map]
      refine congrArg₂ List.cons ?_ ?_
      · show (scoreOne centers rural anchor dmax i c).sname = "Node-" ++ pad2 (i + 0 + 1)
        rw [Nat.add_zero]
        rfl
      · rw [ih (i + 1)]
        refine List.map_congr_left ?_
        intro j _
        show "Node-" ++ pad2 ((i + 1) + j + 1) = "Node-" ++ pad2 (i + (j + 1) + 1)
        rw [harith j]
  · induction sel with
    | nil => rfl
    | cons n ns ih => rw [displayRows, ih, List.map_cons]

end

end CleanNet
